import Mathlib

/-!
Verification of the LUMA-VSC language server core (src/server/src/server.ts).

The development shallowly embeds the three algorithmic components of the
server:

* `stringSimilarity` — the bigram (Dice coefficient) similarity score
  (server.ts lines 35-60), modelled over `List Char` with scores in `ℚ`.
  The JS `Map` is modelled as an association list with JS `Map.set`
  semantics (`setVal`), and `Map.get`/`Map.has` as `lookupCount`.
* `findKeyword` and the document validator `validateTextDocument`
  (server.ts lines 191-321).  The validator is a character-by-character
  scan; each iteration of the `letters.forEach` body is `scanStep`.
  The JS expression `letters[j - 1].includes(';')` can throw a
  `TypeError` when `letters[j - 1]` is `undefined`, so the scan runs in
  `Except String`; an `Except.error` value marks a thrown exception.
  Positions in diagnostics are kept as absolute character offsets
  (`Int`, mirroring JS number arithmetic on `offset`).
* the completion handlers `onCompletion` / `onCompletionResolve`
  (server.ts lines 329-364).
-/

namespace Luma

/-- A produced diagnostic.  `severity` is the numeric LSP severity
(`DiagnosticSeverity.Error = 1`); the range is kept as absolute
character offsets (start inclusive, end exclusive), exactly the two
numbers the source passes to `textDocument.positionAt`. -/
structure Diagnostic where
  severity : Nat
  rangeStart : Int
  rangeEnd : Int
  message : String
  source : String
deriving DecidableEq

def DiagnosticSeverity.Error : Nat := 1

/-- The `luma` settings record (server.ts lines 119-121). -/
structure Settings where
  maxNumberOfProblems : Nat
deriving DecidableEq

/-- server.ts line 126. -/
def defaultSettings : Settings := { maxNumberOfProblems := 1000 }

/-! ## Similarity matcher (server.ts lines 35-60) -/

/-- JS `String.prototype.toLowerCase` restricted to the characters this
repository actually inspects (ASCII). -/
def jsToLower (s : List Char) : List Char := s.map Char.toLower

/-- Lookup in the association-list model of a JS `Map`: the value stored
at `key`, or `none` when `map.has(key)` is false. -/
def lookupCount : List (List Char × Nat) → List Char → Option Nat
  | [], _ => none
  | (k, v) :: rest, key => if k = key then some v else lookupCount rest key

/-- JS `Map.set`: replace the value at an existing key (keeping its
position), or append a fresh entry. -/
def setVal : List (List Char × Nat) → List Char → Nat → List (List Char × Nat)
  | [], key, v => [(key, v)]
  | (k, c) :: rest, key, v =>
    if k = key then (k, v) :: rest else (k, c) :: setVal rest key v

/-- JS `str.substr(i, n)`. -/
def substrAt (s : List Char) (i n : Nat) : List Char := (s.drop i).take n

/-- The substrings enumerated by `for (let i = 0; i < str.length - (n - 1); i++)`. -/
def substrings (s : List Char) (n : Nat) : List (List Char) :=
  (List.range (s.length - (n - 1))).map (fun i => substrAt s i n)

/-- One iteration of the first loop:
`map.set(substr1, map.has(substr1) ? map.get(substr1) + 1 : 1)`. -/
def bump (map : List (List Char × Nat)) (k : List Char) : List (List Char × Nat) :=
  setVal map k ((lookupCount map k).getD 0 + 1)

/-- The multiset of `n`-substrings of `str1` (first loop, lines 43-47). -/
def buildMap (s : List Char) (n : Nat) : List (List Char × Nat) :=
  (substrings s n).foldl bump []

/-- One iteration of the second loop (lines 50-57): consume one
occurrence of `substr2` from the map if a positive count remains. -/
def matchStep (acc : List (List Char × Nat) × Nat) (k : List Char) :
    List (List Char × Nat) × Nat :=
  let count := (lookupCount acc.1 k).getD 0
  if 0 < count then (setVal acc.1 k (count - 1), acc.2 + 1) else acc

/-- The final value of `match` after the second loop. -/
def matchCount (map : List (List Char × Nat)) (s2 : List Char) (n : Nat) : Nat :=
  ((substrings s2 n).foldl matchStep (map, 0)).2

/-- The total number of occurrences stored in the association-list map;
only used to reason about the similarity score, not part of the source. -/
def totalCount (m : List (List Char × Nat)) : Nat := (m.map Prod.snd).sum

/-- server.ts lines 35-60. -/
def stringSimilarity (str1 str2 : String) (substringLength : Nat := 2)
    (caseSensitive : Bool := false) : ℚ :=
  let s1 := if caseSensitive then str1.data else jsToLower str1.data
  let s2 := if caseSensitive then str2.data else jsToLower str2.data
  if s1.length < substringLength ∨ s2.length < substringLength then 0
  else
    ((matchCount (buildMap s1 substringLength) s2 substringLength : ℚ) * 2) /
      ((s1.length : ℚ) + (s2.length : ℚ) - (((substringLength : Nat) : ℚ) - 1) * 2)

/-! ## Keyword directory (server.ts lines 191-197) -/

def knownTokens : List String := [("characters"), ("project")]

/-- server.ts lines 193-197: first known token whose similarity with
`word` exceeds `0.7`; `none` models the implicit `undefined` result. -/
def findKeyword (word : String) : Option String :=
  knownTokens.find? (fun token => decide ((0.7 : ℚ) < stringSimilarity word token))

/-! ## Document scanner / validator (server.ts lines 199-321) -/

/-- The mutable locals of `validateTextDocument` (lines 206-211).
`expectingSemicolon` is declared without an initializer in the source
(`let expectingSemicolon: boolean;`), so it is `Option Bool` with `none`
for the initial `undefined`. -/
structure ScanState where
  diagnostics : List Diagnostic
  offset : Int
  formingWord : List Char
  keywordMatched : Bool
  userDefinedString : Bool
  expectingSemicolon : Option Bool
deriving DecidableEq

def initialScanState : ScanState :=
  { diagnostics := [], offset := 0, formingWord := [], keywordMatched := false,
    userDefinedString := false, expectingSemicolon := none }

/-- JS array indexing `letters[i]` with a possibly negative index:
`undefined` (here `none`) out of bounds. -/
def jsCharAt (letters : List Char) (i : Int) : Option Char :=
  if i < 0 then none else letters[i.toNat]?

/-- `letter == ' ' || letter == '\r' || letter == '\n'` (line 213). -/
def endOfWordChar (letter : Char) : Bool :=
  letter == ' ' || letter == '\r' || letter == '\n'

/-- The whitespace set of JS `String.prototype.trim` (the characters
relevant here; `formingWord` can only ever contain characters that are
not space, carriage return or line feed). -/
def jsWhitespaceChar (c : Char) : Bool :=
  c == ' ' || c == '\t' || c == '\n' || c == '\r' || c == '\x0b' || c == '\x0c'

/-- JS `String.prototype.trim`. -/
def jsTrim (s : List Char) : List Char :=
  ((s.dropWhile jsWhitespaceChar).reverse.dropWhile jsWhitespaceChar).reverse

/-- `formingWord += (!endOfWord) ? letter : '';` (line 214). -/
def appendLetter (letter : Char) (st : ScanState) : ScanState :=
  { st with formingWord :=
      st.formingWord ++ (if !endOfWordChar letter then [letter] else []) }

/-- Lines 215-229: at a word boundary, a word of trimmed length `> 1`
produces an "unresolved word" diagnostic unless `keywordMatched` or
`userDefinedString` is set, and the accumulator is reset. -/
def wordBoundaryCheck (endOfWord : Bool) (st : ScanState) : ScanState :=
  if endOfWord && decide (1 < (jsTrim st.formingWord).length) then
    let correctedKeyword : String :=
      (findKeyword (String.mk (jsTrim st.formingWord))).getD ""
    let diagnostic : Diagnostic :=
      { severity := DiagnosticSeverity.Error
        rangeStart := st.offset - st.formingWord.length
        rangeEnd := st.offset
        message := ("Cannot find \x27" ++ String.mk st.formingWord ++ "\x27. ") ++
          (if 0 < correctedKeyword.length then
            "Did you mean \x27" ++ correctedKeyword ++ "\x27?" else "")
        source := "LUMA" }
    { st with
        diagnostics :=
          if !st.keywordMatched && !st.userDefinedString then
            st.diagnostics ++ [diagnostic]
          else st.diagnostics
        formingWord := []
        keywordMatched := false }
  else st

/-- The "missing terminator" diagnostic (lines 233-241). -/
def semicolonDiagnostic (offset : Int) : Diagnostic :=
  { severity := DiagnosticSeverity.Error
    rangeStart := offset - 1
    rangeEnd := offset
    message := "Expected ; after project name."
    source := "LUMA" }

/-- `expectingSemicolon && !letters[j - 1].includes(';')` (line 232),
with the short-circuit of `&&`: `letters[j - 1]` is only read when
`expectingSemicolon` is truthy, and reading `.includes` off `undefined`
throws.  A single-character string includes a semicolon exactly when it
is one. -/
def crSemicolonCheck (letters : List Char) (j : Nat) (st : ScanState) :
    Except String ScanState :=
  if st.expectingSemicolon.getD false then
    match jsCharAt letters ((j : Int) - 1) with
    | none => Except.error ("TypeError")
    | some prev =>
      if !(prev == ';') then
        Except.ok { st with
          diagnostics := st.diagnostics ++ [semicolonDiagnostic st.offset]
          expectingSemicolon := some false }
      else Except.ok { st with expectingSemicolon := some false }
  else Except.ok { st with expectingSemicolon := some false }

/-- Lines 230-247: the end-of-line handling for a carriage return. -/
def crCheck (letters : List Char) (j : Nat) (letter : Char) (st : ScanState) :
    Except String ScanState :=
  if letter == '\r' then
    match crSemicolonCheck letters j st with
    | Except.error e => Except.error e
    | Except.ok st2 => Except.ok { st2 with userDefinedString := false }
  else Except.ok st

/-- The "missing project name" diagnostic (lines 251-260). -/
def projectNameDiagnostic (offset : Int) : Diagnostic :=
  { severity := DiagnosticSeverity.Error
    rangeStart := offset
    rangeEnd := offset + 2
    message := "Expected project name."
    source := "LUMA" }

/-- The guard `letters[j + 2]?.length == 0` (line 250).  In bounds the
element is a one-character string, whose length is `1`; out of bounds
the optional chain yields `undefined`, and the loose comparison
`undefined == 0` evaluates to `false` in JS. -/
def missingNameGuard (letters : List Char) (j : Nat) : Bool :=
  match jsCharAt letters ((j : Int) + 2) with
  | some c => (String.mk [c]).length == 0
  | none => false

/-- Lines 248-282: the `switch (formingWord)` keyword trigger. -/
def keywordTrigger (letters : List Char) (j : Nat) (st : ScanState) : ScanState :=
  if String.mk st.formingWord == "project" then
    { st with
        diagnostics :=
          if missingNameGuard letters j then
            st.diagnostics ++ [projectNameDiagnostic st.offset]
          else st.diagnostics
        expectingSemicolon := some true
        keywordMatched := true
        userDefinedString := true }
  else st

/-- `offset += 1;` (line 283). -/
def advanceOffset (st : ScanState) : ScanState := { st with offset := st.offset + 1 }

/-- One iteration of the `letters.forEach((letter, j) => ...)` body
(lines 212-284), in source order: accumulate, word-boundary check,
carriage-return check, keyword trigger, advance the offset. -/
def scanStep (letters : List Char) (j : Nat) (letter : Char) (st : ScanState) :
    Except String ScanState :=
  match crCheck letters j letter
      (wordBoundaryCheck (endOfWordChar letter) (appendLetter letter st)) with
  | Except.error e => Except.error e
  | Except.ok st3 => Except.ok (advanceOffset (keywordTrigger letters j st3))

/-- The whole `forEach` loop: process the remaining letters, `j` being
the index of the first of them in `letters`. -/
def scanGo (letters : List Char) : Nat → List Char → ScanState → Except String ScanState
  | _, [], st => Except.ok st
  | j, letter :: rest, st =>
    match scanStep letters j letter st with
    | Except.error e => Except.error e
    | Except.ok st2 => scanGo letters (j + 1) rest st2

/-- server.ts lines 199-321.  The resolved `settings` are fetched but
not consulted by the current pass. -/
def validateTextDocument (text : String) (settings : Settings) :
    Except String (List Diagnostic) :=
  match scanGo text.data 0 text.data initialScanState with
  | Except.error e => Except.error e
  | Except.ok st => Except.ok st.diagnostics

/-! ## Completion provider (server.ts lines 329-364) -/

structure Position where
  line : Nat
  character : Nat
deriving DecidableEq

structure TextDocumentPositionParams where
  uri : String
  position : Position
deriving DecidableEq

structure CompletionItem where
  label : String
  kind : Nat
  data : Nat
  detail : Option String := none
deriving DecidableEq

/-- LSP numeric value of `CompletionItemKind.Keyword`. -/
def CompletionItemKind.Keyword : Nat := 14

/-- server.ts lines 329-347: the completion list ignores the requested
position. -/
def onCompletion (textDocumentPosition : TextDocumentPositionParams) :
    List CompletionItem :=
  [ { label := "characters", kind := CompletionItemKind.Keyword, data := 1 },
    { label := "project", kind := CompletionItemKind.Keyword, data := 2 } ]

/-- server.ts lines 351-364: resolving attaches detail text to the item
with `data == 1` and returns every other item unchanged. -/
def onCompletionResolve (item : CompletionItem) : CompletionItem :=
  match item.data with
  | 1 => { item with detail := some ("Specifies all the characters in the project.") }
  | _ => item

/-! ## Lemmas -/

theorem lookupCount_setVal (m : List (List Char × Nat)) (key : List Char) (v : Nat)
    (k' : List Char) :
    lookupCount (setVal m key v) k' = if key = k' then some v else lookupCount m k' := by
  induction m with
  | nil =>
    by_cases h : key = k' <;> simp [setVal, lookupCount, h]
  | cons hd tl ih =>
    obtain ⟨k, c⟩ := hd
    by_cases h1 : k = key
    · subst h1
      by_cases h2 : k = k' <;> simp [setVal, lookupCount, h2]
    · by_cases h2 : k = k'
      · subst h2
        have h3 : ¬ key = k := fun hh => h1 hh.symm
        simp [setVal, lookupCount, h1, h3]
      · by_cases h4 : key = k'
        · subst h4
          simp [setVal, lookupCount, h1, h2, ih]
        · simp [setVal, lookupCount, h1, h2, h4, ih]

theorem totalCount_cons (p : List Char × Nat) (tl : List (List Char × Nat)) :
    totalCount (p :: tl) = p.2 + totalCount tl := by
  simp [totalCount]

theorem totalCount_setVal (m : List (List Char × Nat)) (key : List Char) (v : Nat) :
    totalCount (setVal m key v) + (lookupCount m key).getD 0 = totalCount m + v := by
  induction m with
  | nil => simp [setVal, lookupCount, totalCount]
  | cons hd tl ih =>
    obtain ⟨k, c⟩ := hd
    by_cases h : k = key
    · subst h
      simp [setVal, lookupCount, totalCount_cons]
      omega
    · simp [setVal, lookupCount, h, totalCount_cons]
      omega

theorem lookupCount_getD_le_totalCount (m : List (List Char × Nat)) (key : List Char) :
    (lookupCount m key).getD 0 ≤ totalCount m := by
  induction m with
  | nil => simp [lookupCount, totalCount]
  | cons hd tl ih =>
    obtain ⟨k, c⟩ := hd
    by_cases h : k = key <;> simp [lookupCount, totalCount_cons, h] <;> omega

theorem totalCount_bump (m : List (List Char × Nat)) (k : List Char) :
    totalCount (bump m k) = totalCount m + 1 := by
  have h := totalCount_setVal m k ((lookupCount m k).getD 0 + 1)
  unfold bump
  omega

theorem totalCount_foldl_bump (L : List (List Char)) :
    ∀ m : List (List Char × Nat), totalCount (L.foldl bump m) = totalCount m + L.length := by
  induction L with
  | nil => intro m; simp
  | cons k L ih =>
    intro m
    simp only [List.foldl_cons, ih (bump m k), totalCount_bump, List.length_cons]
    omega

theorem lookupCount_bump (m : List (List Char × Nat)) (k k' : List Char) :
    (lookupCount (bump m k) k').getD 0 =
      (lookupCount m k').getD 0 + (if k = k' then 1 else 0) := by
  unfold bump
  rw [lookupCount_setVal]
  by_cases h : k = k' <;> simp [h]

theorem lookupCount_foldl_bump (L : List (List Char)) :
    ∀ (m : List (List Char × Nat)) (k : List Char),
      (lookupCount (L.foldl bump m) k).getD 0 = (lookupCount m k).getD 0 + L.count k := by
  induction L with
  | nil => intro m k; simp
  | cons a L ih =>
    intro m k
    simp only [List.foldl_cons, ih (bump m a) k, lookupCount_bump, List.count_cons]
    by_cases h : a = k
    · simp [h]
      omega
    · have h2 : (k == a) = false := by
        simp [beq_iff_eq]
        exact fun hh => h hh.symm
      simp [h, h2]

theorem matchStep_sum (acc : List (List Char × Nat) × Nat) (k : List Char) :
    (matchStep acc k).2 + totalCount (matchStep acc k).1 = acc.2 + totalCount acc.1 := by
  obtain ⟨m, c⟩ := acc
  unfold matchStep
  by_cases h : 0 < (lookupCount m k).getD 0
  · have hs := totalCount_setVal m k ((lookupCount m k).getD 0 - 1)
    simp only [h, if_pos]
    omega
  · simp [h]

theorem matchStep_le (acc : List (List Char × Nat) × Nat) (k : List Char) :
    (matchStep acc k).2 ≤ acc.2 + 1 := by
  obtain ⟨m, c⟩ := acc
  unfold matchStep
  by_cases h : 0 < (lookupCount m k).getD 0 <;> simp [h]

theorem matchFold_sum (L : List (List Char)) :
    ∀ acc : List (List Char × Nat) × Nat,
      (L.foldl matchStep acc).2 + totalCount (L.foldl matchStep acc).1 =
        acc.2 + totalCount acc.1 := by
  induction L with
  | nil => intro acc; simp
  | cons k L ih =>
    intro acc
    simp only [List.foldl_cons, ih (matchStep acc k), matchStep_sum]

theorem matchFold_le (L : List (List Char)) :
    ∀ acc : List (List Char × Nat) × Nat,
      (L.foldl matchStep acc).2 ≤ acc.2 + L.length := by
  induction L with
  | nil => intro acc; simp
  | cons k L ih =>
    intro acc
    calc (L.foldl matchStep (matchStep acc k)).2 ≤ (matchStep acc k).2 + L.length :=
          ih (matchStep acc k)
      _ ≤ acc.2 + 1 + L.length := by have := matchStep_le acc k; omega
      _ = acc.2 + (k :: L).length := by simp [List.length_cons]; omega

theorem matchCount_le_totalCount (map : List (List Char × Nat)) (s2 : List Char) (n : Nat) :
    matchCount map s2 n ≤ totalCount map := by
  have h := matchFold_sum (substrings s2 n) (map, 0)
  simp only [] at h
  unfold matchCount
  omega

theorem length_substrings (s : List Char) (n : Nat) :
    (substrings s n).length = s.length - (n - 1) := by
  simp [substrings]

theorem matchCount_le_length (map : List (List Char × Nat)) (s2 : List Char) (n : Nat) :
    matchCount map s2 n ≤ s2.length - (n - 1) := by
  have h := matchFold_le (substrings s2 n) (map, 0)
  rw [length_substrings] at h
  unfold matchCount
  omega

theorem totalCount_buildMap (s : List Char) (n : Nat) :
    totalCount (buildMap s n) = s.length - (n - 1) := by
  unfold buildMap
  rw [totalCount_foldl_bump, length_substrings]
  simp [totalCount]

theorem matchFold_all (L : List (List Char)) :
    ∀ (m : List (List Char × Nat)) (c : Nat),
      (∀ k, L.count k ≤ (lookupCount m k).getD 0) →
      (L.foldl matchStep (m, c)).2 = c + L.length := by
  induction L with
  | nil => intro m c _; simp
  | cons a L ih =>
    intro m c h
    have ha : 0 < (lookupCount m a).getD 0 := by
      have hc := h a
      rw [List.count_cons_self] at hc
      omega
    have hstep : matchStep (m, c) a =
        (setVal m a ((lookupCount m a).getD 0 - 1), c + 1) := by
      unfold matchStep
      simp [ha]
    simp only [List.foldl_cons, hstep]
    rw [ih _ _ ?_]
    · simp [List.length_cons]
      omega
    · intro k
      rw [lookupCount_setVal]
      by_cases hak : a = k
      · subst hak
        have hc := h a
        rw [List.count_cons_self] at hc
        simp
        omega
      · have hc := h k
        rw [List.count_cons_of_ne (fun hh => hak hh.symm)] at hc
        simp [hak]
        exact hc

theorem matchCount_self (t : List Char) (n : Nat) :
    matchCount (buildMap t n) t n = t.length - (n - 1) := by
  unfold matchCount buildMap
  rw [matchFold_all (substrings t n) _ 0 ?_]
  · rw [length_substrings]
    omega
  · intro k
    rw [lookupCount_foldl_bump]
    simp [lookupCount]


theorem jsCharAt_eq_getElem (letters : List Char) (i : Nat) (h : i < letters.length) :
    jsCharAt letters (i : Int) = some letters[i] := by
  unfold jsCharAt
  rw [if_neg (by omega)]
  simp [h]

theorem appendLetter_length (letter : Char) (st : ScanState) :
    (appendLetter letter st).formingWord.length ≤ st.formingWord.length + 1 := by
  unfold appendLetter
  split <;> simp

theorem appendLetter_expectingSemicolon (letter : Char) (st : ScanState) :
    (appendLetter letter st).expectingSemicolon = st.expectingSemicolon := rfl

theorem appendLetter_diagnostics (letter : Char) (st : ScanState) :
    (appendLetter letter st).diagnostics = st.diagnostics := rfl

theorem wordBoundaryCheck_expectingSemicolon (e : Bool) (st : ScanState) :
    (wordBoundaryCheck e st).expectingSemicolon = st.expectingSemicolon := by
  unfold wordBoundaryCheck
  split <;> rfl

theorem wordBoundaryCheck_length (e : Bool) (st : ScanState) :
    (wordBoundaryCheck e st).formingWord.length ≤ st.formingWord.length := by
  unfold wordBoundaryCheck
  split <;> simp

theorem crSemicolonCheck_ok (letters : List Char) (j : Nat) (st : ScanState)
    (hj : j < letters.length)
    (hes : st.expectingSemicolon = some true → 7 ≤ j) :
    ∃ st2, crSemicolonCheck letters j st = Except.ok st2 ∧
      st2.formingWord = st.formingWord ∧ st2.expectingSemicolon = some false := by
  unfold crSemicolonCheck
  by_cases h : st.expectingSemicolon.getD false
  · have h7 : 7 ≤ j := by
      apply hes
      cases hst : st.expectingSemicolon with
      | none => rw [hst] at h; simp [Option.getD] at h
      | some b => rw [hst] at h; simp [Option.getD] at h; rw [h]
    have hj1 : j - 1 < letters.length := by omega
    have hcast : ((j : Int) - 1) = ((j - 1 : Nat) : Int) := by omega
    rw [h, if_pos rfl]
    simp only [hcast, jsCharAt_eq_getElem letters (j - 1) hj1]
    by_cases hsc : !(letters[j - 1] == ';')
    · rw [if_pos hsc]
      exact ⟨_, rfl, rfl, rfl⟩
    · rw [if_neg hsc]
      exact ⟨_, rfl, rfl, rfl⟩
  · rw [Bool.not_eq_true] at h
    rw [h, if_neg Bool.false_ne_true]
    exact ⟨_, rfl, rfl, rfl⟩

theorem crCheck_ok (letters : List Char) (j : Nat) (letter : Char) (st : ScanState)
    (hj : j < letters.length)
    (hes : st.expectingSemicolon = some true → 7 ≤ j) :
    ∃ st3, crCheck letters j letter st = Except.ok st3 ∧
      st3.formingWord = st.formingWord ∧
      (st3.expectingSemicolon = some true → st.expectingSemicolon = some true) := by
  unfold crCheck
  by_cases h : letter == '\r'
  · obtain ⟨st2, hok, hfw, hexp⟩ := crSemicolonCheck_ok letters j st hj hes
    rw [h, if_pos rfl, hok]
    refine ⟨_, rfl, hfw, ?_⟩
    intro habs
    have : st2.expectingSemicolon = some true := habs
    rw [hexp] at this
    simp at this
  · rw [Bool.not_eq_true] at h
    rw [h, if_neg Bool.false_ne_true]
    exact ⟨st, rfl, rfl, fun hh => hh⟩

theorem keywordTrigger_formingWord (letters : List Char) (j : Nat) (st : ScanState) :
    (keywordTrigger letters j st).formingWord = st.formingWord := by
  unfold keywordTrigger
  split <;> rfl

theorem keywordTrigger_expectingSemicolon (letters : List Char) (j : Nat) (st : ScanState) :
    (keywordTrigger letters j st).expectingSemicolon = some true →
      st.expectingSemicolon = some true ∨ st.formingWord.length = 7 := by
  unfold keywordTrigger
  split
  · next h =>
    intro _
    right
    have heq : String.mk st.formingWord = "project" := by
      exact eq_of_beq h
    have : st.formingWord = ("project").data := congrArg String.data heq
    rw [this]
    rfl
  · intro h
    left
    exact h

theorem scanStep_ok (letters : List Char) (j : Nat) (letter : Char) (st : ScanState)
    (hj : j < letters.length)
    (hfw : st.formingWord.length ≤ j)
    (hes : st.expectingSemicolon = some true → 7 ≤ j) :
    ∃ st4, scanStep letters j letter st = Except.ok st4 ∧
      st4.formingWord.length ≤ j + 1 ∧
      (st4.expectingSemicolon = some true → 7 ≤ j + 1) := by
  have hes2 : (wordBoundaryCheck (endOfWordChar letter) (appendLetter letter st)).expectingSemicolon =
      some true → 7 ≤ j := by
    rw [wordBoundaryCheck_expectingSemicolon, appendLetter_expectingSemicolon]
    exact hes
  obtain ⟨st3, hok, hfw3, hes3⟩ :=
    crCheck_ok letters j letter (wordBoundaryCheck (endOfWordChar letter) (appendLetter letter st))
      hj hes2
  refine ⟨advanceOffset (keywordTrigger letters j st3), ?_, ?_, ?_⟩
  · unfold scanStep
    rw [hok]
  · show (keywordTrigger letters j st3).formingWord.length ≤ j + 1
    rw [keywordTrigger_formingWord, hfw3]
    calc (wordBoundaryCheck (endOfWordChar letter) (appendLetter letter st)).formingWord.length ≤
          (appendLetter letter st).formingWord.length := wordBoundaryCheck_length _ _
      _ ≤ st.formingWord.length + 1 := appendLetter_length _ _
      _ ≤ j + 1 := by omega
  · show (keywordTrigger letters j st3).expectingSemicolon = some true → 7 ≤ j + 1
    intro h4
    rcases keywordTrigger_expectingSemicolon letters j st3 h4 with h | h
    · have := hes2 (hes3 h)
      omega
    · rw [hfw3] at h
      have h5 : (wordBoundaryCheck (endOfWordChar letter) (appendLetter letter st)).formingWord.length ≤
          st.formingWord.length + 1 := by
        calc (wordBoundaryCheck (endOfWordChar letter) (appendLetter letter st)).formingWord.length ≤
              (appendLetter letter st).formingWord.length := wordBoundaryCheck_length _ _
          _ ≤ st.formingWord.length + 1 := appendLetter_length _ _
      omega

theorem scanGo_ok (letters : List Char) (rest : List Char) :
    ∀ (j : Nat) (st : ScanState), j + rest.length = letters.length →
      st.formingWord.length ≤ j →
      (st.expectingSemicolon = some true → 7 ≤ j) →
      ∃ st2, scanGo letters j rest st = Except.ok st2 := by
  induction rest with
  | nil =>
    intro j st _ _ _
    exact ⟨st, rfl⟩
  | cons letter rest ih =>
    intro j st hlen hfw hes
    have hj : j < letters.length := by
      simp only [List.length_cons] at hlen
      omega
    obtain ⟨st4, hstep, h1, h2⟩ := scanStep_ok letters j letter st hj hfw hes
    have hlen2 : (j + 1) + rest.length = letters.length := by
      simp only [List.length_cons] at hlen
      omega
    obtain ⟨st2, hgo⟩ := ih (j + 1) st4 hlen2 h1 h2
    refine ⟨st2, ?_⟩
    unfold scanGo
    rw [hstep]
    exact hgo


theorem cannotFind_ne (a b t : String) (ht : t.data.head? = some ('E')) :
    ("Cannot find \x27" ++ a ++ "\x27. ") ++ b ≠ t := by
  intro h
  have h2 : ((("Cannot find \x27" ++ a) ++ "\x27. ") ++ b).data = t.data := by rw [h]
  rw [String.data_append, String.data_append, String.data_append] at h2
  have h3 : ("Cannot find \x27").data = 'C' :: ("annot find \x27").data := rfl
  rw [h3] at h2
  rw [← h2] at ht
  simp at ht

theorem missingNameGuard_false (letters : List Char) (j : Nat) :
    missingNameGuard letters j = false := by
  unfold missingNameGuard
  cases jsCharAt letters ((j : Int) + 2) <;> rfl

theorem keywordTrigger_diagnostics (letters : List Char) (j : Nat) (st : ScanState) :
    (keywordTrigger letters j st).diagnostics = st.diagnostics := by
  unfold keywordTrigger
  split
  · simp [missingNameGuard_false]
  · rfl

theorem wordBoundaryCheck_diag_mem (e : Bool) (st : ScanState) (d : Diagnostic)
    (hd : d ∈ (wordBoundaryCheck e st).diagnostics) :
    d ∈ st.diagnostics ∨
      ∃ a b, d.message = ("Cannot find \x27" ++ a ++ "\x27. ") ++ b := by
  unfold wordBoundaryCheck at hd
  split at hd
  · simp only [] at hd
    split at hd
    · rw [List.mem_append] at hd
      rcases hd with hd | hd
      · exact Or.inl hd
      · right
        rw [List.mem_singleton] at hd
        subst hd
        exact ⟨_, _, rfl⟩
    · exact Or.inl hd
  · exact Or.inl hd

theorem crSemicolonCheck_diag_mem (letters : List Char) (j : Nat) (st st2 : ScanState)
    (h : crSemicolonCheck letters j st = Except.ok st2) (d : Diagnostic)
    (hd : d ∈ st2.diagnostics) :
    d ∈ st.diagnostics ∨ d.message = "Expected ; after project name." := by
  unfold crSemicolonCheck at h
  split at h
  · split at h
    · exact absurd h (by simp)
    · split at h
      · rw [Except.ok.injEq] at h
        subst h
        simp only [] at hd
        rw [List.mem_append] at hd
        rcases hd with hd | hd
        · exact Or.inl hd
        · right
          rw [List.mem_singleton] at hd
          subst hd
          rfl
      · rw [Except.ok.injEq] at h
        subst h
        exact Or.inl hd
  · rw [Except.ok.injEq] at h
    subst h
    exact Or.inl hd

theorem crCheck_diag_mem (letters : List Char) (j : Nat) (letter : Char) (st st3 : ScanState)
    (h : crCheck letters j letter st = Except.ok st3) (d : Diagnostic)
    (hd : d ∈ st3.diagnostics) :
    d ∈ st.diagnostics ∨ d.message = "Expected ; after project name." := by
  unfold crCheck at h
  split at h
  · split at h
    · exact absurd h (by simp)
    · next st2 heq =>
      rw [Except.ok.injEq] at h
      subst h
      exact crSemicolonCheck_diag_mem letters j st st2 heq d hd
  · rw [Except.ok.injEq] at h
    subst h
    exact Or.inl hd

theorem crCheck_not_cr (letters : List Char) (j : Nat) (letter : Char) (st : ScanState)
    (h : ¬ letter = '\r') :
    crCheck letters j letter st = Except.ok st := by
  unfold crCheck
  rw [if_neg]
  simp [h]

theorem scanStep_diag_mem (letters : List Char) (j : Nat) (letter : Char) (st st4 : ScanState)
    (h : scanStep letters j letter st = Except.ok st4) (d : Diagnostic)
    (hd : d ∈ st4.diagnostics) :
    d ∈ st.diagnostics ∨
      (∃ a b, d.message = ("Cannot find \x27" ++ a ++ "\x27. ") ++ b) ∨
      d.message = "Expected ; after project name." := by
  unfold scanStep at h
  split at h
  · exact absurd h (by simp)
  · next st3 heq =>
    rw [Except.ok.injEq] at h
    subst h
    have hd3 : d ∈ st3.diagnostics := by
      have e : (advanceOffset (keywordTrigger letters j st3)).diagnostics = st3.diagnostics := by
        show (keywordTrigger letters j st3).diagnostics = st3.diagnostics
        exact keywordTrigger_diagnostics letters j st3
      rw [e] at hd
      exact hd
    rcases crCheck_diag_mem letters j letter _ st3 heq d hd3 with h2 | h2
    · rcases wordBoundaryCheck_diag_mem (endOfWordChar letter) (appendLetter letter st) d h2 with
        h3 | h3
      · rw [appendLetter_diagnostics] at h3
        exact Or.inl h3
      · exact Or.inr (Or.inl h3)
    · exact Or.inr (Or.inr h2)

theorem scanStep_diag_mem_noCR (letters : List Char) (j : Nat) (letter : Char)
    (st st4 : ScanState) (hl : ¬ letter = '\r')
    (h : scanStep letters j letter st = Except.ok st4) (d : Diagnostic)
    (hd : d ∈ st4.diagnostics) :
    d ∈ st.diagnostics ∨
      ∃ a b, d.message = ("Cannot find \x27" ++ a ++ "\x27. ") ++ b := by
  unfold scanStep at h
  rw [crCheck_not_cr letters j letter _ hl] at h
  simp only [] at h
  rw [Except.ok.injEq] at h
  subst h
  have hd3 : d ∈ (wordBoundaryCheck (endOfWordChar letter) (appendLetter letter st)).diagnostics := by
    have e : (advanceOffset (keywordTrigger letters j
        (wordBoundaryCheck (endOfWordChar letter) (appendLetter letter st)))).diagnostics =
        (wordBoundaryCheck (endOfWordChar letter) (appendLetter letter st)).diagnostics :=
      keywordTrigger_diagnostics letters j _
    rw [e] at hd
    exact hd
  rcases wordBoundaryCheck_diag_mem (endOfWordChar letter) (appendLetter letter st) d hd3 with
    h3 | h3
  · rw [appendLetter_diagnostics] at h3
    exact Or.inl h3
  · exact Or.inr h3

theorem scanGo_diag_mem (letters : List Char) (rest : List Char) :
    ∀ (j : Nat) (st st2 : ScanState),
      scanGo letters j rest st = Except.ok st2 →
      ∀ d ∈ st2.diagnostics,
        d ∈ st.diagnostics ∨
          (∃ a b, d.message = ("Cannot find \x27" ++ a ++ "\x27. ") ++ b) ∨
          d.message = "Expected ; after project name." := by
  induction rest with
  | nil =>
    intro j st st2 h d hd
    unfold scanGo at h
    rw [Except.ok.injEq] at h
    subst h
    exact Or.inl hd
  | cons letter rest ih =>
    intro j st st2 h d hd
    unfold scanGo at h
    split at h
    · exact absurd h (by simp)
    · next st4 heq =>
      rcases ih (j + 1) st4 st2 h d hd with h2 | h2 | h2
      · exact scanStep_diag_mem letters j letter st st4 heq d h2
      · exact Or.inr (Or.inl h2)
      · exact Or.inr (Or.inr h2)

theorem scanGo_diag_mem_noCR (letters : List Char) (rest : List Char) :
    ∀ (j : Nat) (st st2 : ScanState),
      (∀ c ∈ rest, ¬ c = '\r') →
      scanGo letters j rest st = Except.ok st2 →
      ∀ d ∈ st2.diagnostics,
        d ∈ st.diagnostics ∨
          ∃ a b, d.message = ("Cannot find \x27" ++ a ++ "\x27. ") ++ b := by
  induction rest with
  | nil =>
    intro j st st2 _ h d hd
    unfold scanGo at h
    rw [Except.ok.injEq] at h
    subst h
    exact Or.inl hd
  | cons letter rest ih =>
    intro j st st2 hcr h d hd
    unfold scanGo at h
    split at h
    · exact absurd h (by simp)
    · next st4 heq =>
      have hl : ¬ letter = '\r' := hcr letter (List.mem_cons_self letter rest)
      have hrest : ∀ c ∈ rest, ¬ c = '\r' := fun c hc => hcr c (List.mem_cons_of_mem letter hc)
      rcases ih (j + 1) st4 st2 hrest h d hd with h2 | h2
      · exact scanStep_diag_mem_noCR letters j letter st st4 hl heq d h2
      · exact Or.inr h2

theorem stringSimilarity_charakters :
    stringSimilarity ("charakters") ("characters") = 14 / 18 := by
  have h : stringSimilarity ("charakters") ("characters") =
      ((matchCount (buildMap (jsToLower (("charakters").data)) 2)
          (jsToLower (("characters").data)) 2 : ℚ) * 2) /
        (((jsToLower (("charakters").data)).length : ℚ) +
          ((jsToLower (("characters").data)).length : ℚ) - (((2 : Nat) : ℚ) - 1) * 2) := rfl
  rw [h]
  norm_num [show matchCount (buildMap (jsToLower (("charakters").data)) 2)
      (jsToLower (("characters").data)) 2 = 7 from rfl,
    show (jsToLower (("charakters").data)).length = 10 from rfl,
    show (jsToLower (("characters").data)).length = 10 from rfl]

theorem findKeyword_charakters : findKeyword ("charakters") = some ("characters") := by
  unfold findKeyword knownTokens
  simp only [List.find?]
  rw [stringSimilarity_charakters]
  norm_num

theorem stringSimilarity_abc_characters : stringSimilarity ("abc") ("characters") = 0 := by
  have h : stringSimilarity ("abc") ("characters") =
      ((matchCount (buildMap (jsToLower (("abc").data)) 2)
          (jsToLower (("characters").data)) 2 : ℚ) * 2) /
        (((jsToLower (("abc").data)).length : ℚ) +
          ((jsToLower (("characters").data)).length : ℚ) - (((2 : Nat) : ℚ) - 1) * 2) := rfl
  rw [h]
  norm_num [show matchCount (buildMap (jsToLower (("abc").data)) 2)
      (jsToLower (("characters").data)) 2 = 0 from rfl]

theorem stringSimilarity_abc_project : stringSimilarity ("abc") ("project") = 0 := by
  have h : stringSimilarity ("abc") ("project") =
      ((matchCount (buildMap (jsToLower (("abc").data)) 2)
          (jsToLower (("project").data)) 2 : ℚ) * 2) /
        (((jsToLower (("abc").data)).length : ℚ) +
          ((jsToLower (("project").data)).length : ℚ) - (((2 : Nat) : ℚ) - 1) * 2) := rfl
  rw [h]
  norm_num [show matchCount (buildMap (jsToLower (("abc").data)) 2)
      (jsToLower (("project").data)) 2 = 0 from rfl]

theorem findKeyword_abc : findKeyword ("abc") = none := by
  unfold findKeyword knownTokens
  simp only [List.find?]
  rw [stringSimilarity_abc_characters, stringSimilarity_abc_project]
  norm_num

theorem validate_abc_lf : validateTextDocument ("abc\n") defaultSettings =
    Except.ok [{ severity := 1, rangeStart := 0, rangeEnd := 3,
                 message := "Cannot find \x27abc\x27. ", source := "LUMA" }] := by
  have h : validateTextDocument ("abc\n") defaultSettings =
      Except.ok [{ severity := 1, rangeStart := 0, rangeEnd := 3,
                   message := ("Cannot find \x27abc\x27. ") ++
                     (if 0 < ((findKeyword (String.mk (jsTrim (['a','b','c'])))).getD "").length then
                       "Did you mean \x27" ++
                         ((findKeyword (String.mk (jsTrim (['a','b','c'])))).getD "") ++ "\x27?"
                     else ""),
                   source := "LUMA" }] := rfl
  rw [h, show String.mk (jsTrim (['a','b','c'])) = ("abc") from rfl, findKeyword_abc]
  rfl

/-! ## Claim theorems -/

/-- Claim C1: the spec asserts that for the text `"project;\r\n"` the
validator emits an `Expected project name.` diagnostic spanning
`[offset, offset + 2)`.  Evaluating the embedded code at that input
shows the validator returns no diagnostics at all: the guard
`letters[j + 2]?.length == 0` is never true (in bounds the element is a
one-character string, out of bounds `undefined == 0` is false), so the
code contradicts the documented intent. -/
theorem C1_project_semicolon_no_diagnostics :
    validateTextDocument ("project;\r\n") defaultSettings = Except.ok [] := rfl

/-- Claim C2: for the text `"project MyGame\r\n"` (no semicolon before
the carriage return) the validator emits exactly one diagnostic, the
`Expected ; after project name.` diagnostic spanning `[13, 14)` (that
is, `[offset - 1, offset)` at the carriage return, which sits at offset
14), and no unresolved-word diagnostic for `MyGame`. -/
theorem C2_project_MyGame_missing_semicolon (settings : Settings) :
    validateTextDocument ("project MyGame\r\n") settings =
      Except.ok [{ severity := 1, rangeStart := 13, rangeEnd := 14,
                   message := "Expected ; after project name.", source := "LUMA" }] := rfl

/-- Claim C3: for the single-token text `"projectX\r\n"` the validator
emits no `Cannot find` diagnostic and still emits the
`Expected ; after project name.` diagnostic at the carriage return
(offset 8, range `[7, 8)`); moreover after scanning just the first
seven characters (the prefix `project` of the token `projectX`) the
scan state already has `keywordMatched`, `userDefinedString` and
`expectingSemicolon` set, i.e. the trigger fired mid-word the moment
the accumulator passed through the exact value `project`. -/
theorem C3_projectX_suppression_and_terminator (settings : Settings) :
    validateTextDocument ("projectX\r\n") settings =
      Except.ok [{ severity := 1, rangeStart := 7, rangeEnd := 8,
                   message := "Expected ; after project name.", source := "LUMA" }] ∧
    ∃ st, scanGo (("projectX\r\n").data) 0 (List.take 7 (("projectX\r\n").data))
          initialScanState = Except.ok st ∧
        st.keywordMatched = true ∧ st.userDefinedString = true ∧
        st.expectingSemicolon = some true ∧ st.formingWord = ("project").data := by
  refine ⟨rfl, ?_⟩
  exact ⟨_, rfl, rfl, rfl, rfl, rfl⟩

/-- Claim C4: on any text containing no carriage-return character the
validator never emits a diagnostic whose message is
`Expected ; after project name.` — that diagnostic is only ever pushed
inside the carriage-return branch of the scan. -/
theorem C4_no_carriage_return_no_terminator_diagnostic (text : String) (settings : Settings)
    (ds : List Diagnostic)
    (hcr : ∀ c ∈ text.data, ¬ c = '\r')
    (hok : validateTextDocument text settings = Except.ok ds) :
    ∀ d ∈ ds, d.message ≠ "Expected ; after project name." := by
  unfold validateTextDocument at hok
  split at hok
  · exact absurd hok (by simp)
  · next st heq =>
    rw [Except.ok.injEq] at hok
    subst hok
    intro d hd
    rcases scanGo_diag_mem_noCR text.data text.data 0 initialScanState st hcr heq d hd with
      h | h
    · simp [initialScanState] at h
    · obtain ⟨a, b, hab⟩ := h
      rw [hab]
      exact cannotFind_ne a b _ (by rfl)

/-- Claim C4 witness: the line-feed-only text `"abc\n"` produces one
unresolved-word diagnostic, whose message is not the terminator
message. -/
theorem C4_witness :
    ({ severity := 1, rangeStart := 0, rangeEnd := 3,
       message := "Cannot find \x27abc\x27. ", source := "LUMA" } : Diagnostic).message ≠
      "Expected ; after project name." :=
  C4_no_carriage_return_no_terminator_diagnostic ("abc\n") defaultSettings _ (by decide)
    validate_abc_lf _ (by decide)

/-- Claim C5: on every input the validator never emits a diagnostic
with message `Expected project name.`: the guard
`letters[j + 2]?.length == 0` is unsatisfiable (split characters have
length 1, and past the end the optional access yields `undefined`, not
`0`). -/
theorem C5_expected_project_name_never_emitted (text : String) (settings : Settings)
    (ds : List Diagnostic)
    (hok : validateTextDocument text settings = Except.ok ds) :
    ∀ d ∈ ds, d.message ≠ "Expected project name." := by
  unfold validateTextDocument at hok
  split at hok
  · exact absurd hok (by simp)
  · next st heq =>
    rw [Except.ok.injEq] at hok
    subst hok
    intro d hd
    rcases scanGo_diag_mem text.data text.data 0 initialScanState st heq d hd with h | h | h
    · simp [initialScanState] at h
    · obtain ⟨a, b, hab⟩ := h
      rw [hab]
      exact cannotFind_ne a b _ (by rfl)
    · rw [h]
      decide

/-- Claim C5 witness: `"project\r\n"` (a project declaration with a
missing semicolon) yields exactly the terminator diagnostic, whose
message is not `Expected project name.`. -/
theorem C5_witness :
    ({ severity := 1, rangeStart := 6, rangeEnd := 7,
       message := "Expected ; after project name.", source := "LUMA" } : Diagnostic).message ≠
      "Expected project name." :=
  C5_expected_project_name_never_emitted ("project\r\n") defaultSettings _ rfl _ (by decide)

/-- Claim C6: the validator is total — for every input text and any
settings value it terminates with a (possibly empty) diagnostics list
and never raises.  The only possibly-throwing access,
`letters[j - 1].includes(';')`, is reached only when
`expectingSemicolon` is set, which requires the scan to have passed
through the seven-character accumulator `project`, so `j ≥ 7` and the
index is in range. -/
theorem C6_validator_total_never_raises (text : String) (settings : Settings) :
    ∃ diagnostics, validateTextDocument text settings = Except.ok diagnostics := by
  obtain ⟨st2, h⟩ := scanGo_ok text.data text.data 0 initialScanState (by simp)
    (by simp [initialScanState]) (by simp [initialScanState])
  refine ⟨st2.diagnostics, ?_⟩
  unfold validateTextDocument
  rw [h]

/-- Claim C7: for the text `"charakters\r\n"` the validator emits
exactly one unresolved-word diagnostic, whose message carries the
suggestion suffix for `characters`; `findKeyword` returns `characters`
because the similarity score is `14/18`, which exceeds `0.7`. -/
theorem C7_charakters_suggestion (settings : Settings) :
    validateTextDocument ("charakters\r\n") settings =
      Except.ok [{ severity := 1, rangeStart := 0, rangeEnd := 10,
                   message := "Cannot find \x27charakters\x27. Did you mean \x27characters\x27?",
                   source := "LUMA" }] ∧
    findKeyword ("charakters") = some ("characters") ∧
    stringSimilarity ("charakters") ("characters") = 14 / 18 ∧
    (0.7 : ℚ) < 14 / 18 := by
  refine ⟨?_, findKeyword_charakters, stringSimilarity_charakters, by norm_num⟩
  have h : validateTextDocument ("charakters\r\n") settings =
      Except.ok [{ severity := 1, rangeStart := 0, rangeEnd := 10,
                   message := ("Cannot find \x27charakters\x27. ") ++
                     (if 0 < ((findKeyword (String.mk (jsTrim
                         (['c','h','a','r','a','k','t','e','r','s'])))).getD "").length then
                       "Did you mean \x27" ++ ((findKeyword (String.mk (jsTrim
                         (['c','h','a','r','a','k','t','e','r','s'])))).getD "") ++ "\x27?"
                     else ""),
                   source := "LUMA" }] := rfl
  rw [h, show String.mk (jsTrim (['c','h','a','r','a','k','t','e','r','s'])) =
      ("charakters") from rfl, findKeyword_charakters]
  rfl

/-- Claim C8: the similarity score is always within `[0, 1]` for any
two strings and any substring length `n ≥ 1`: at most
`min` of the substring counts of the two inputs can match, so twice the
match count is bounded by the denominator. -/
theorem C8_similarity_score_bounds (str1 str2 : String) (n : Nat) (hn : 1 ≤ n) :
    0 ≤ stringSimilarity str1 str2 n ∧ stringSimilarity str1 str2 n ≤ 1 := by
  simp only [stringSimilarity, Bool.false_eq_true, if_false]
  split
  · exact ⟨le_refl 0, by norm_num⟩
  · next hguard =>
    push_neg at hguard
    obtain ⟨hl1, hl2⟩ := hguard
    have hm1 : matchCount (buildMap (jsToLower str1.data) n) (jsToLower str2.data) n ≤
        (jsToLower str1.data).length - (n - 1) := by
      calc matchCount (buildMap (jsToLower str1.data) n) (jsToLower str2.data) n ≤
            totalCount (buildMap (jsToLower str1.data) n) :=
          matchCount_le_totalCount _ _ _
        _ = (jsToLower str1.data).length - (n - 1) := totalCount_buildMap _ n
    have hm2 := matchCount_le_length (buildMap (jsToLower str1.data) n) (jsToLower str2.data) n
    have c1 : (n : ℚ) ≤ ((jsToLower str1.data).length : ℚ) := by exact_mod_cast hl1
    have c2 : (n : ℚ) ≤ ((jsToLower str2.data).length : ℚ) := by exact_mod_cast hl2
    have c3 : (1 : ℚ) ≤ (n : ℚ) := by exact_mod_cast hn
    have hD : (0 : ℚ) < ((jsToLower str1.data).length : ℚ) +
        ((jsToLower str2.data).length : ℚ) - ((n : ℚ) - 1) * 2 := by linarith
    have key : matchCount (buildMap (jsToLower str1.data) n) (jsToLower str2.data) n * 2 +
        (n - 1) * 2 ≤ (jsToLower str1.data).length + (jsToLower str2.data).length := by
      omega
    have kq := (Nat.cast_le (α := ℚ)).mpr key
    push_cast [Nat.cast_sub hn] at kq
    constructor
    · apply div_nonneg
      · positivity
      · linarith
    · rw [div_le_one hD]
      linarith

/-- Claim C8 witness: the bounds instantiated at `"ab"`, `"ba"`, `n = 2`. -/
theorem C8_witness :
    1 ≤ 2 ∧ (0 ≤ stringSimilarity ("ab") ("ba") 2 ∧ stringSimilarity ("ab") ("ba") 2 ≤ 1) :=
  ⟨by decide, C8_similarity_score_bounds ("ab") ("ba") 2 (by decide)⟩

/-- Claim C9: the similarity of a string with itself is `1` whenever its
length is at least the substring length: every substring is consumed
exactly once from the multiset built from the same string, so the match
count equals `len − n + 1` and the score reduces to `1`. -/
theorem C9_similarity_self_equals_one (s : String) (n : Nat) (hn : 1 ≤ n)
    (hlen : n ≤ s.length) :
    stringSimilarity s s n = 1 := by
  have e : s.length = s.data.length := rfl
  have hlen2 : n ≤ (jsToLower s.data).length := by
    simp only [jsToLower, List.length_map]
    omega
  simp only [stringSimilarity, Bool.false_eq_true, if_false]
  rw [if_neg (by push_neg; exact ⟨hlen2, hlen2⟩)]
  rw [matchCount_self]
  have h1 : n - 1 ≤ (jsToLower s.data).length := by omega
  rw [Nat.cast_sub h1, Nat.cast_sub hn]
  have c1 : (n : ℚ) ≤ ((jsToLower s.data).length : ℚ) := by exact_mod_cast hlen2
  have c3 : (1 : ℚ) ≤ (n : ℚ) := by exact_mod_cast hn
  rw [div_eq_one_iff_eq (by linarith)]
  push_cast
  ring

/-- Claim C9 witness: `similarity("project", "project") = 1` with the
default substring length `2`. -/
theorem C9_witness :
    (1 ≤ 2 ∧ 2 ≤ ("project").length) ∧ stringSimilarity ("project") ("project") 2 = 1 :=
  ⟨⟨by decide, by decide⟩, C9_similarity_self_equals_one ("project") 2 (by decide) (by decide)⟩

/-- Claim C10: the completion handler always returns exactly the two
items `characters` then `project` (in that order, whatever position was
requested); resolving an item with identifier `1` attaches the
non-empty `characters` detail string, and resolving an item with any
other identifier returns it unchanged. -/
theorem C10_completion_items_and_resolve (p : TextDocumentPositionParams)
    (item1 item2 : CompletionItem) (h1 : item1.data = 1) (h2 : item2.data ≠ 1) :
    onCompletion p =
      [{ label := "characters", kind := 14, data := 1, detail := none },
       { label := "project", kind := 14, data := 2, detail := none }] ∧
    ((onCompletionResolve item1).detail =
        some ("Specifies all the characters in the project.") ∧
      0 < ("Specifies all the characters in the project.").length) ∧
    onCompletionResolve item2 = item2 := by
  refine ⟨rfl, ⟨?_, by decide⟩, ?_⟩
  · unfold onCompletionResolve
    rw [h1]
  · obtain ⟨l, k, dd, det⟩ := item2
    rcases dd with _ | dd2
    · rfl
    · rcases dd2 with _ | nn
      · exact absurd rfl h2
      · rfl

/-- Claim C10 witness: the statement instantiated at a concrete request
position and the two concrete completion items. -/
theorem C10_witness :
    onCompletion { uri := "file:///game.lotus", position := { line := 0, character := 0 } } =
      [{ label := "characters", kind := 14, data := 1, detail := none },
       { label := "project", kind := 14, data := 2, detail := none }] ∧
    ((onCompletionResolve { label := "characters", kind := 14, data := 1, detail := none }).detail =
        some ("Specifies all the characters in the project.") ∧
      0 < ("Specifies all the characters in the project.").length) ∧
    onCompletionResolve { label := "project", kind := 14, data := 2, detail := none } =
      { label := "project", kind := 14, data := 2, detail := none } :=
  C10_completion_items_and_resolve
    { uri := "file:///game.lotus", position := { line := 0, character := 0 } }
    { label := "characters", kind := 14, data := 1, detail := none }
    { label := "project", kind := 14, data := 2, detail := none }
    rfl (by decide)

end Luma
